import Mathlib

/-!
Verification of the Posture-Analyser capture core
(`app/src/main/cpp/v4l2_camera.cpp`, `uvc_camera_impl.cpp`, `uvc_camera.cpp`)
against its natural-language specification.

The C++ code is embedded shallowly:

* `V4L2State` mirrors the fields of class `V4L2Camera`
  (`fd_`, `current_buffer_`, `buffers_`, `buffer_start_`, `buffer_count_`,
  `streaming_`); nullable arrays become `Option (List _)`.
* `DevState` models the kernel/driver side that the ioctls act on: the
  current REQBUFS allocation, which buffer indices are queued at the
  device, which have been dequeued to the application (InFlight), the
  streaming flag, and the negotiated format.  Its transition rules follow
  the V4L2 ioctl contracts: QBUF accepts a buffer only if its struct is
  well formed (type `V4L2_BUF_TYPE_VIDEO_CAPTURE`, memory
  `V4L2_MEMORY_MMAP`), its index is inside the allocation, and the buffer
  is not already queued; DQBUF only hands out a queued buffer while
  streaming; S_FMT is rejected with EBUSY while buffers are allocated;
  every ioctl fails on a negative file descriptor.
* `Ioc` is the per-call environment oracle for the remaining
  nondeterminism (what `::open`, QUERYCAP, REQBUFS, QUERYBUF, `mmap`,
  the driver side of QBUF/DQBUF, STREAMON/STREAMOFF and S_FMT return).
* Every operation also returns the list of external calls it issued
  (`Cmd`), so that claims about rollback, release order, double free and
  "performs no I/O" are statements about the trace.

All definitions are executable and all loops are structural recursions
over explicit index lists, so concrete runs reduce with `decide`.
-/

namespace PostureAnalyser

/-- `V4L2_BUF_TYPE_VIDEO_CAPTURE` (numeric value 1). -/
def capBufType : Nat := 1

/-- `V4L2_MEMORY_MMAP` (numeric value 1). -/
def memMmap : Nat := 1

/-- The fields of `struct v4l2_buffer` that the code reads or writes. -/
structure V4l2Buf where
  index : Nat
  length : Nat
  bytesused : Nat
  bufType : Nat
  memory : Nat
deriving DecidableEq, Repr

/-- A zero-filled `v4l2_buffer`, as produced by `memset(&buf, 0, sizeof(buf))`. -/
def zeroBuf : V4l2Buf := ⟨0, 0, 0, 0, 0⟩

/-- One slot of the `buffer_start_` array: not yet written by the
initialization loop, written with `MAP_FAILED`, or a live mapping
(address and length). -/
inductive MapSlot
  | unset
  | mapFailed
  | mapped (addr : Nat) (len : Nat)
deriving DecidableEq, Repr

/-- The member state of class `V4L2Camera`.  `buffers = none` models
`buffers_ == nullptr`, likewise `buffer_start`. -/
structure V4L2State where
  fd : Int
  current_buffer : V4l2Buf
  buffers : Option (List V4l2Buf)
  buffer_start : Option (List MapSlot)
  buffer_count : Nat
  streaming : Bool
deriving DecidableEq, Repr

/-- The state established by the `V4L2Camera` constructor. -/
def initialCam : V4L2State :=
  { fd := -1, current_buffer := zeroBuf, buffers := none, buffer_start := none,
    buffer_count := 0, streaming := false }

/-- Kernel/driver-side state acted on by the ioctls. -/
structure DevState where
  granted : Nat
  queued : List Nat
  dequeued : List Nat
  devStreaming : Bool
  width : Nat
  height : Nat
  pixFmt : Nat
deriving DecidableEq, Repr

/-- A freshly opened device: no buffer allocation, nothing queued. -/
def initialDev : DevState :=
  { granted := 0, queued := [], dequeued := [], devStreaming := false,
    width := 0, height := 0, pixFmt := 0 }

/-- Camera object together with the device it talks to. -/
structure World where
  cam : V4L2State
  dev : DevState
deriving DecidableEq, Repr

def initialWorld : World := ⟨initialCam, initialDev⟩

/-- External calls the code issues, recorded as a trace. -/
inductive Cmd
  | ioctlQueryCap
  | ioctlSFmt (w h pf : Nat)
  | ioctlReqBufs (count : Nat)
  | ioctlQueryBuf (index : Nat)
  | mmapCall (index : Nat)
  | munmapCall (addr : Nat) (len : Nat)
  | ioctlQBuf (b : V4l2Buf)
  | ioctlDQBuf
  | ioctlStreamOn
  | ioctlStreamOff
  | closeFd (fd : Int)
deriving DecidableEq, Repr

/-- Per-call environment oracle: the outcomes of the external calls that
are not determined by the modelled device state. -/
structure Ioc where
  openFd : Option Nat
  queryCap : Option (Bool × Bool)
  sfmt : Nat → Nat → Nat → Option (Nat × Nat × Nat)
  reqbufs : Nat → Option Nat
  querybuf : Nat → Option Nat
  mmapAddr : Nat → Option Nat
  qbufOk : Nat → Bool
  dqbuf : Option (Nat × Nat)
  streamonOk : Bool
  streamoffOk : Bool

/-- QBUF validity at the device: well-formed struct, index inside the
current allocation, not already queued. -/
def devAccepts (d : DevState) (b : V4l2Buf) : Prop :=
  b.bufType = capBufType ∧ b.memory = memMmap ∧ b.index < d.granted ∧ b.index ∉ d.queued

instance (d : DevState) (b : V4l2Buf) : Decidable (devAccepts d b) := by
  unfold devAccepts; infer_instance

/-- Device response to `VIDIOC_QBUF`: on acceptance the buffer joins the
device queue and leaves the application-held (dequeued) set. -/
def devQbuf (d : DevState) (driverOk : Bool) (b : V4l2Buf) : Bool × DevState :=
  if driverOk ∧ devAccepts d b then
    (true, { d with queued := d.queued ++ [b.index], dequeued := d.dequeued.erase b.index })
  else (false, d)

/-- Device response to `VIDIOC_DQBUF`: the oracle proposes a completed
buffer; it is handed out only if it is actually queued and the device is
streaming. -/
def devDqbuf (d : DevState) (pick : Option (Nat × Nat)) : Option (Nat × Nat) × DevState :=
  match pick with
  | none => (none, d)
  | some (i, used) =>
    if d.devStreaming ∧ i ∈ d.queued then
      (some (i, used), { d with queued := d.queued.erase i, dequeued := d.dequeued ++ [i] })
    else (none, d)

/-- Device response to `VIDIOC_REQBUFS`: rejected while streaming (EBUSY);
otherwise the driver grants a count and the allocation is replaced, with
every buffer initially dequeued-state (nothing queued). -/
def devReqbufs (d : DevState) (grantRes : Option Nat) : Option Nat × DevState :=
  if d.devStreaming then (none, d)
  else
    match grantRes with
    | none => (none, d)
    | some g => (some g, { d with granted := g, queued := [], dequeued := [] })

/-- Device response to `VIDIOC_S_FMT`: rejected with EBUSY while buffers
are allocated; otherwise the driver may accept (possibly substituting
values) or reject. -/
def devSFmt (d : DevState) (res : Option (Nat × Nat × Nat)) :
    Option (Nat × Nat × Nat) × DevState :=
  if d.granted ≠ 0 then (none, d)
  else
    match res with
    | none => (none, d)
    | some (w, h, pf) => (some (w, h, pf), { d with width := w, height := h, pixFmt := pf })

/-- `V4L2Camera::queryCapabilities`: QUERYCAP ioctl, then the
`V4L2_CAP_VIDEO_CAPTURE` and `V4L2_CAP_STREAMING` checks. -/
def queryCapabilities (w : World) (e : Ioc) : Bool × List Cmd :=
  if w.cam.fd < 0 then (false, [Cmd.ioctlQueryCap])
  else
    match e.queryCap with
    | none => (false, [Cmd.ioctlQueryCap])
    | some (capCapture, capStreaming) => (capCapture && capStreaming, [Cmd.ioctlQueryCap])

/-- `V4L2Camera::open(device_path)`: `fd_ = ::open(...)`; on a failed
capability check the fd is closed and `fd_` reset to `-1`. -/
def openPath (w : World) (e : Ioc) : Bool × World × List Cmd :=
  match e.openFd with
  | none => (false, { w with cam := { w.cam with fd := -1 } }, [])
  | some fd =>
    let w1 := { w with cam := { w.cam with fd := (fd : Int) } }
    let q := queryCapabilities w1 e
    if q.1 then (true, w1, q.2)
    else (false, { w1 with cam := { w1.cam with fd := -1 } }, q.2 ++ [Cmd.closeFd (fd : Int)])

/-- `V4L2Camera::openByFd(fd)`: adopts the descriptor; on a failed
capability check `fd_` is reset to `-1` without closing the descriptor. -/
def openByFd (w : World) (e : Ioc) (fd : Int) : Bool × World × List Cmd :=
  if fd < 0 then (false, w, [])
  else
    let w1 := { w with cam := { w.cam with fd := fd } }
    let q := queryCapabilities w1 e
    if q.1 then (true, w1, q.2)
    else (false, { w1 with cam := { w1.cam with fd := -1 } }, q.2)

/-- `V4L2Camera::setFormat`: fill a local `v4l2_format` with the request
and issue `VIDIOC_S_FMT`.  There is no streaming/state check in the
code; the accepted format is only logged — the function returns a bare
boolean and stores nothing in the camera object. -/
def setFormat (w : World) (e : Ioc) (wd ht pf : Nat) : Bool × World × List Cmd :=
  if w.cam.fd < 0 then (false, w, [Cmd.ioctlSFmt wd ht pf])
  else
    let r := devSFmt w.dev (e.sfmt wd ht pf)
    match r.1 with
    | none => (false, { w with dev := r.2 }, [Cmd.ioctlSFmt wd ht pf])
    | some _ => (true, { w with dev := r.2 }, [Cmd.ioctlSFmt wd ht pf])

/-- `V4L2Camera::freeBuffers`: `munmap` every live mapping reachable
through `buffer_start_` (skipping null / `MAP_FAILED` slots), then drop
both arrays and zero the count.  The munmap length is the one recorded
when the slot was mapped (the code reads it from `buffers_[i].length`,
which agrees with it on every execution that mapped slot `i`). -/
def freeBuffers (c : V4L2State) : V4L2State × List Cmd :=
  let cmds :=
    match c.buffer_start with
    | none => []
    | some slots =>
      (List.range c.buffer_count).filterMap fun i =>
        match slots.getD i MapSlot.unset with
        | MapSlot.mapped a l => some (Cmd.munmapCall a l)
        | _ => none
  ({ c with buffer_start := none, buffers := none, buffer_count := 0 }, cmds)

/-- The `v4l2_buffer` produced for index `i` by QUERYBUF (the driver
fills in the length). -/
def mkQueriedBuf (i len : Nat) : V4l2Buf :=
  { index := i, length := len, bytesused := 0, bufType := capBufType, memory := memMmap }

/-- The QUERYBUF/mmap loop body of `V4L2Camera::initBuffers`, iterated
over the index list `idxs` (called with `List.range granted`). -/
def initLoop (e : Ioc) (idxs : List Nat) (bufs : List V4l2Buf)
    (slots : List MapSlot) (tr : List Cmd) :
    Bool × List V4l2Buf × List MapSlot × List Cmd :=
  match idxs with
  | [] => (true, bufs, slots, tr)
  | i :: rest =>
    let tr1 := tr ++ [Cmd.ioctlQueryBuf i]
    match e.querybuf i with
    | none => (false, bufs, slots, tr1)
    | some len =>
      let tr2 := tr1 ++ [Cmd.mmapCall i]
      match e.mmapAddr i with
      | none => (false, bufs, slots.set i MapSlot.mapFailed, tr2)
      | some a =>
        initLoop e rest (bufs.set i (mkQueriedBuf i len))
          (slots.set i (MapSlot.mapped a len)) tr2

/-- `V4L2Camera::initBuffers`: REQBUFS for 4 buffers, fail if fewer than
2 granted, allocate the two arrays, then QUERYBUF + mmap each index; on
any loop failure call `freeBuffers` and fail.  Note that no failure path
issues a releasing `REQBUFS(0)`. -/
def initBuffers (w : World) (e : Ioc) : Bool × World × List Cmd :=
  if w.cam.fd < 0 then (false, w, [Cmd.ioctlReqBufs 4])
  else
    let r := devReqbufs w.dev (e.reqbufs 4)
    match r.1 with
    | none => (false, { w with dev := r.2 }, [Cmd.ioctlReqBufs 4])
    | some granted =>
      if granted < 2 then (false, { w with dev := r.2 }, [Cmd.ioctlReqBufs 4])
      else
        let il := initLoop e (List.range granted) (List.replicate granted zeroBuf)
          (List.replicate granted MapSlot.unset) []
        let c2 := { w.cam with buffer_count := granted,
                               buffers := some il.2.1, buffer_start := some il.2.2.1 }
        if il.1 then (true, { w with cam := c2, dev := r.2 }, Cmd.ioctlReqBufs 4 :: il.2.2.2)
        else
          let fr := freeBuffers c2
          (false, { w with cam := fr.1, dev := r.2 },
           Cmd.ioctlReqBufs 4 :: (il.2.2.2 ++ fr.2))

/-- The buffer struct built by the queue-all loop of
`V4L2Camera::startStreaming` for index `i` (memset to zero, then type,
memory and index filled in). -/
def mkQueueBuf (i : Nat) : V4l2Buf :=
  { index := i, length := 0, bytesused := 0, bufType := capBufType, memory := memMmap }

/-- The queue-all loop of `V4L2Camera::startStreaming`, iterated over
`idxs` (called with `List.range buffer_count_`).  On a QBUF failure it
returns false immediately — nothing is rolled back. -/
def qbufLoop (w : World) (e : Ioc) (idxs : List Nat) (tr : List Cmd) :
    Bool × World × List Cmd :=
  match idxs with
  | [] => (true, w, tr)
  | i :: rest =>
    let b := mkQueueBuf i
    let r := devQbuf w.dev (e.qbufOk i) b
    let tr1 := tr ++ [Cmd.ioctlQBuf b]
    if r.1 then qbufLoop { w with dev := r.2 } e rest tr1
    else (false, { w with dev := r.2 }, tr1)

/-- `V4L2Camera::startStreaming`: `initBuffers`, queue every buffer,
STREAMON, set `streaming_`.  Failures after `initBuffers` succeeded
return with the pool and any queued buffers left as they are. -/
def startStreaming (w : World) (e : Ioc) : Bool × World × List Cmd :=
  let ib := initBuffers w e
  if ib.1 = false then ib
  else
    let ql := qbufLoop ib.2.1 e (List.range ib.2.1.cam.buffer_count) []
    if ql.1 = false then (false, ql.2.1, ib.2.2 ++ ql.2.2)
    else
      let tr2 := ib.2.2 ++ ql.2.2 ++ [Cmd.ioctlStreamOn]
      let w2 := ql.2.1
      if w2.cam.fd < 0 then (false, w2, tr2)
      else if e.streamonOk then
        (true, { w2 with cam := { w2.cam with streaming := true },
                         dev := { w2.dev with devStreaming := true } }, tr2)
      else (false, w2, tr2)

/-- `V4L2Camera::stopStreaming`: immediately true when not streaming;
otherwise STREAMOFF (which returns every buffer to the dequeued state at
the device) and clear `streaming_`. -/
def stopStreaming (w : World) (e : Ioc) : Bool × World × List Cmd :=
  if w.cam.streaming = false then (true, w, [])
  else if w.cam.fd < 0 then (false, w, [Cmd.ioctlStreamOff])
  else if e.streamoffOk then
    let d1 := { w.dev with devStreaming := false, queued := [], dequeued := [] }
    (true, { w with cam := { w.cam with streaming := false }, dev := d1 },
     [Cmd.ioctlStreamOff])
  else (false, w, [Cmd.ioctlStreamOff])

/-- `V4L2Camera::getFrame`: fail without I/O when not streaming;
otherwise memset `current_buffer_`, set type and memory, DQBUF; on
success return the buffer index and `bytesused` (the caller receives the
pointer `buffer_start_[index]` and that length). -/
def getFrame (w : World) (e : Ioc) : Option (Nat × Nat) × World × List Cmd :=
  if w.cam.streaming = false then (none, w, [])
  else
    let cb0 : V4l2Buf := mkQueueBuf 0
    let w1 := { w with cam := { w.cam with current_buffer := cb0 } }
    if w.cam.fd < 0 then (none, w1, [Cmd.ioctlDQBuf])
    else
      let r := devDqbuf w.dev e.dqbuf
      match r.1 with
      | none => (none, { w1 with dev := r.2 }, [Cmd.ioctlDQBuf])
      | some (i, used) =>
        let cb := { cb0 with index := i, bytesused := used }
        (some (i, used),
         { w1 with cam := { w1.cam with current_buffer := cb }, dev := r.2 },
         [Cmd.ioctlDQBuf])

/-- `V4L2Camera::releaseFrame`: unconditionally QBUF `current_buffer_`,
logging and ignoring any failure; no value is returned to the caller. -/
def releaseFrame (w : World) (e : Ioc) : World × List Cmd :=
  let b := w.cam.current_buffer
  if w.cam.fd < 0 then (w, [Cmd.ioctlQBuf b])
  else
    let r := devQbuf w.dev (e.qbufOk b.index) b
    ({ w with dev := r.2 }, [Cmd.ioctlQBuf b])

/-- `V4L2Camera::close`: stop streaming if active, free the buffer pool,
close the descriptor if open. -/
def close (w : World) (e : Ioc) : World × List Cmd :=
  let w1 := if w.cam.streaming then (stopStreaming w e).2.1 else w
  let tr1 := if w.cam.streaming then (stopStreaming w e).2.2 else []
  let fr := freeBuffers w1.cam
  let w2 := { w1 with cam := fr.1 }
  if 0 ≤ w2.cam.fd then
    ({ w2 with cam := { w2.cam with fd := -1 } }, tr1 ++ fr.2 ++ [Cmd.closeFd w2.cam.fd])
  else (w2, tr1 ++ fr.2)

/-- Number of live memory mappings held by the camera object. -/
def liveMappings (c : V4L2State) : Nat :=
  match c.buffer_start with
  | none => 0
  | some slots =>
    (slots.filter fun s =>
      match s with
      | MapSlot.mapped _ _ => true
      | _ => false).length

/-- Number of buffers currently InFlight (dequeued to the application). -/
def inFlight (w : World) : Nat := w.dev.dequeued.length

/-- `nativeGetFrame` (JNI binding): call `getFrame`; on success allocate
a fresh managed byte array of `buffer_size` bytes, copy the frame into
it (`SetByteArrayRegion`) when the allocation succeeded, then always
call `releaseFrame` before returning.  The returned `(index, size)`
stands for the freshly copied array (a value, detached from the mapped
buffer); `none` is the null return. -/
def nativeGetFrame (w : World) (e : Ioc) (allocOk : Bool) :
    Option (Nat × Nat) × World × List Cmd :=
  let g := getFrame w e
  match g.1 with
  | none => g
  | some (i, used) =>
    let arr := if allocOk then some (i, used) else none
    let r := releaseFrame g.2.1 e
    (arr, r.1, g.2.2 ++ r.2)

/-! ## USB bulk backend (`uvc_camera_impl.cpp`) -/

/-- `UVC_INTERFACE_CLASS` (0x0E). -/
def UVC_INTERFACE_CLASS : Nat := 14

/-- `UVC_INTERFACE_SUBCLASS_STREAMING` (0x02). -/
def UVC_INTERFACE_SUBCLASS_STREAMING : Nat := 2

/-- `USB_ENDPOINT_XFER_BULK` (the literal 2 in the code). -/
def USB_ENDPOINT_XFER_BULK : Nat := 2

/-- `UsbConstants.USB_DIR_IN` (the literal 128 in the code). -/
def USB_DIR_IN : Nat := 128

/-- One USB endpoint as seen through the Android USB Host API. -/
structure UsbEndpoint where
  etype : Nat
  direction : Nat
deriving DecidableEq, Repr

/-- One USB interface: class/subclass, its endpoints, and whether
`UsbDeviceConnection.claimInterface` on it succeeds. -/
structure UsbInterface where
  iclass : Nat
  isubclass : Nat
  endpoints : List UsbEndpoint
  claimOk : Bool
deriving DecidableEq, Repr

/-- A USB device descriptor: its interface list. -/
structure UsbDeviceDesc where
  interfaces : List UsbInterface
deriving DecidableEq, Repr

/-- The member state of class `UVCCamera`.  Global JNI references are
modelled as held/not-held flags; heap frame buffers get allocation ids
from `nextAlloc` so that a buffer replaced without `delete[]` can be
observed in `leaked`. -/
structure UVCState where
  hasEnv : Bool
  usbConnection : Bool
  usbDevice : Bool
  bulkEndpoint : Option (Nat × Nat)
  width : Nat
  height : Nat
  streaming : Bool
  frameBuffer : Option Nat
  frameBufferSize : Nat
  nextAlloc : Nat
  leaked : List Nat
deriving DecidableEq, Repr

/-- The state established by the `UVCCamera` constructor. -/
def uvcInitial : UVCState :=
  { hasEnv := false, usbConnection := false, usbDevice := false, bulkEndpoint := none,
    width := 640, height := 480, streaming := false, frameBuffer := none,
    frameBufferSize := 0, nextAlloc := 0, leaked := [] }

/-- `UVCCamera::findStreamingInterface`: scan the interfaces in order;
at each class-0x0E/subclass-2 match attempt `claimInterface`; succeed at
the first match that claims, keep scanning past a refused claim, fail
when the list is exhausted. -/
def findStreamingInterface (ifaces : List UsbInterface) : Bool :=
  match ifaces with
  | [] => false
  | it :: rest =>
    if it.iclass = UVC_INTERFACE_CLASS ∧ it.isubclass = UVC_INTERFACE_SUBCLASS_STREAMING then
      if it.claimOk then true else findStreamingInterface rest
    else findStreamingInterface rest

/-- The inner endpoint loop (`for j`): index of the first bulk IN
endpoint in an endpoint list. -/
def findBulkInAux (eps : List UsbEndpoint) (j : Nat) : Option Nat :=
  match eps with
  | [] => none
  | ep :: rest =>
    if ep.etype = USB_ENDPOINT_XFER_BULK ∧ ep.direction = USB_DIR_IN then some j
    else findBulkInAux rest (j + 1)

def findBulkIn (eps : List UsbEndpoint) : Option Nat := findBulkInAux eps 0

/-- `UVCCamera::findBulkEndpoint`: scan the endpoints of EVERY interface
of the device (not only the claimed streaming interface), returning the
first bulk IN endpoint found, as (interface index, endpoint index). -/
def findBulkEndpointAux (ifaces : List UsbInterface) (i : Nat) : Option (Nat × Nat) :=
  match ifaces with
  | [] => none
  | it :: rest =>
    match findBulkIn it.endpoints with
    | some j => some (i, j)
    | none => findBulkEndpointAux rest (i + 1)

def findBulkEndpoint (d : UsbDeviceDesc) : Option (Nat × Nat) :=
  findBulkEndpointAux d.interfaces 0

/-- `UVCCamera::open`: take global references to the connection and the
device, then `findStreamingInterface`, then `findBulkEndpoint`.  On
either failure the references are kept (only `close` drops them). -/
def uvcOpen (u : UVCState) (d : UsbDeviceDesc) : Bool × UVCState :=
  let u1 := { u with hasEnv := true, usbConnection := true, usbDevice := true }
  if findStreamingInterface d.interfaces then
    match findBulkEndpoint d with
    | some ep => (true, { u1 with bulkEndpoint := some ep })
    | none => (false, u1)
  else (false, u1)

/-- `UVCCamera::setFormat`: store width/height, allocate the YUYV-sized
frame buffer (2 bytes per pixel) WITHOUT deleting a previous one, then
`negotiateFormat`, which is a stub that always returns true. -/
def uvcSetFormat (u : UVCState) (wd ht : Nat) : Bool × UVCState :=
  let newLeaked :=
    match u.frameBuffer with
    | some a => u.leaked ++ [a]
    | none => u.leaked
  (true, { u with width := wd, height := ht, frameBufferSize := wd * ht * 2,
                  frameBuffer := some u.nextAlloc, nextAlloc := u.nextAlloc + 1,
                  leaked := newLeaked })

/-- `UVCCamera::startStreaming`: requires a discovered bulk endpoint,
then just sets the flag. -/
def uvcStartStreaming (u : UVCState) : Bool × UVCState :=
  match u.bulkEndpoint with
  | none => (false, u)
  | some _ => (true, { u with streaming := true })

/-- `UVCCamera::stopStreaming`: clears the flag. -/
def uvcStopStreaming (u : UVCState) : UVCState := { u with streaming := false }

/-- `UVCCamera::releaseFrame`: literally `// Nothing to do for now`. -/
def uvcReleaseFrame (u : UVCState) : UVCState := u

/-- `UVCCamera::close`: stop streaming if active, delete the frame
buffer, drop the global references (only while `env_` is non-null),
null out `env_`. -/
def uvcClose (u : UVCState) : UVCState :=
  let u1 := if u.streaming then uvcStopStreaming u else u
  let u2 :=
    match u1.frameBuffer with
    | some _ => { u1 with frameBuffer := none, frameBufferSize := 0 }
    | none => u1
  let u3 :=
    if u2.hasEnv then
      { u2 with usbConnection := false, usbDevice := false, bulkEndpoint := none }
    else u2
  { u3 with hasEnv := false }

/-! ## Concrete fixtures for counterexamples and witnesses -/

/-- `V4L2_PIX_FMT_YUYV` fourcc, as exposed by `getYUYVFormat`. -/
def V4L2_PIX_FMT_YUYV : Nat := 0x56595559

/-- An environment in which every external call succeeds. -/
def iocAllOk : Ioc :=
  { openFd := some 3, queryCap := some (true, true),
    sfmt := fun w h pf => some (w, h, pf),
    reqbufs := fun n => some n,
    querybuf := fun _ => some 100,
    mmapAddr := fun i => some (4096 * (i + 1)),
    qbufOk := fun _ => true,
    dqbuf := some (2, 5),
    streamonOk := true, streamoffOk := true }

/-- A freshly opened kernel camera (fd 3, capabilities verified). -/
def wOpened : World := (openPath initialWorld iocAllOk).2.1

/-- The opened camera after a successful `setFormat 640 480 YUYV`. -/
def wFmt : World := (setFormat wOpened iocAllOk 640 480 V4L2_PIX_FMT_YUYV).2.1

/-- Environment in which the driver rejects the QBUF of every index
except 0 (used to fail `startStreaming` mid queue-loop). -/
def iocQbufFail : Ioc := { iocAllOk with qbufOk := fun i => i == 0 }

/-- Environment in which `mmap` fails for buffer index 1. -/
def iocMmapFail : Ioc :=
  { iocAllOk with mmapAddr := fun i => if i == 1 then none else some (4096 * (i + 1)) }

/-- Environment in which the driver grants only 1 buffer. -/
def iocGrantOne : Ioc := { iocAllOk with reqbufs := fun _ => some 1 }

/-- Environment in which QUERYCAP reports no video-capture capability. -/
def iocNoCapture : Ioc := { iocAllOk with queryCap := some (false, true) }

/-- Environment in which the device accepts `setFormat` verbatim at
640×480. -/
def iocAccept640 : Ioc :=
  { iocAllOk with sfmt := fun _ _ _ => some (640, 480, V4L2_PIX_FMT_YUYV) }

/-- Environment in which the device silently substitutes 320×240. -/
def iocAccept320 : Ioc :=
  { iocAllOk with sfmt := fun _ _ _ => some (320, 240, V4L2_PIX_FMT_YUYV) }

/-! Worlds of the C5 scenario: stream, dequeue buffer 2, release it,
stop, then restart with the QBUF of index 1 failing. -/

def w5a : World := (startStreaming wFmt iocAllOk).2.1
def w5b : World := (getFrame w5a iocAllOk).2.1
def w5c : World := (releaseFrame w5b iocAllOk).1
def w5d : World := (stopStreaming w5c iocAllOk).2.1
def w5e : World := (startStreaming w5d iocQbufFail).2.1

/-- Device descriptor whose FIRST matching streaming interface refuses
`claimInterface` while a second matching one accepts it. -/
def d9a : UsbDeviceDesc := ⟨[⟨14, 2, [], false⟩, ⟨14, 2, [], true⟩]⟩

/-- Device descriptor whose claimed streaming interface has no
endpoints, while a non-matching, unclaimed interface carries the only
bulk IN endpoint. -/
def d9b : UsbDeviceDesc := ⟨[⟨14, 2, [], true⟩, ⟨255, 0, [⟨2, 128⟩], false⟩]⟩

/-- A UVC camera opened on `d9b` and actively streaming. -/
def uStreaming : UVCState :=
  (uvcStartStreaming (uvcSetFormat (uvcOpen uvcInitial d9b).2 640 480).2).2

/-- One polling round of the capture loop: `getFrame`, and when a frame
was returned, `releaseFrame` before the next request (the call
discipline of spec invariant I1). -/
structure RoundEnv where
  dq : Option (Nat × Nat)
  relOk : Bool
deriving DecidableEq, Repr

/-- Environment for one round: the DQBUF proposal and the driver-side
QBUF answer for the release. -/
def roundIoc (r : RoundEnv) : Ioc :=
  { iocAllOk with dqbuf := r.dq, qbufOk := fun _ => r.relOk }

def pollRound (w : World) (r : RoundEnv) : World :=
  let g := getFrame w (roundIoc r)
  match g.1 with
  | none => g.2.1
  | some _ => (releaseFrame g.2.1 (roundIoc r)).1

/-- The worlds observed inside one round: after `getFrame`, and (when a
frame was returned) after the matching `releaseFrame`. -/
def pollStates (w : World) (r : RoundEnv) : List World :=
  let g := getFrame w (roundIoc r)
  match g.1 with
  | none => [g.2.1]
  | some _ => [g.2.1, (releaseFrame g.2.1 (roundIoc r)).1]

/-- All worlds observed while executing a list of rounds. -/
def runPolls (w : World) (rs : List RoundEnv) : List World :=
  match rs with
  | [] => []
  | r :: rest => pollStates w r ++ runPolls (pollRound w r) rest

/-- Every observed world has at most one InFlight buffer. -/
def allLeOne (l : List World) : Prop := ∀ u ∈ l, inFlight u ≤ 1

/-- The driver accepts the requeue of every round. -/
def allRelOk (rs : List RoundEnv) : Prop := ∀ r ∈ rs, r.relOk = true

instance (rs : List RoundEnv) : Decidable (allRelOk rs) := by
  unfold allRelOk; infer_instance

instance (l : List World) : Decidable (allLeOne l) := by
  unfold allLeOne; infer_instance

/-- Device-side sanity: the queue holds no duplicates and only indices
inside the current allocation. -/
def DevInv (d : DevState) : Prop :=
  d.queued.Nodup ∧ ∀ i ∈ d.queued, i < d.granted

/-- A concrete round list for witnesses. -/
def rounds0 : List RoundEnv := [⟨some (0, 7), true⟩, ⟨none, true⟩, ⟨some (1, 3), true⟩]

/-- `V4L2Camera::isOpen`: `fd_ >= 0`. -/
def isOpen (c : V4L2State) : Bool := decide (0 ≤ c.fd)

def isMunmap : Cmd → Bool
  | Cmd.munmapCall _ _ => true
  | _ => false

def isCloseCmd : Cmd → Bool
  | Cmd.closeFd _ => true
  | _ => false

/-- Occurrences of a command in a trace. -/
def countCmd (c : Cmd) (tr : List Cmd) : Nat :=
  (tr.filter fun x => decide (x = c)).length

/-! ## Helper lemmas -/

theorem qbufLoop_cam (e : Ioc) (idxs : List Nat) :
    ∀ (w : World) (tr : List Cmd), ((qbufLoop w e idxs tr).2.1).cam = w.cam := by
  induction idxs with
  | nil => intro w tr; rfl
  | cons i rest ih =>
    intro w tr
    unfold qbufLoop
    dsimp only
    split
    · exact ih _ _
    · rfl

theorem qbufLoop_granted (e : Ioc) (idxs : List Nat) :
    ∀ (w : World) (tr : List Cmd),
      ((qbufLoop w e idxs tr).2.1).dev.granted = w.dev.granted := by
  induction idxs with
  | nil => intro w tr; rfl
  | cons i rest ih =>
    intro w tr
    unfold qbufLoop
    dsimp only
    split
    · rw [ih]
      unfold devQbuf
      split <;> rfl
    · unfold devQbuf
      split <;> rfl

theorem qbufLoop_inv (e : Ioc) (idxs : List Nat) :
    ∀ (w : World) (tr : List Cmd), w.dev.queued.Nodup →
      (∀ i ∈ w.dev.queued, i < w.dev.granted) → w.dev.dequeued = [] →
      ((qbufLoop w e idxs tr).2.1).dev.queued.Nodup ∧
      (∀ i ∈ ((qbufLoop w e idxs tr).2.1).dev.queued,
        i < ((qbufLoop w e idxs tr).2.1).dev.granted) ∧
      ((qbufLoop w e idxs tr).2.1).dev.dequeued = [] := by
  induction idxs with
  | nil => intro w tr h1 h2 h3; exact ⟨h1, h2, h3⟩
  | cons i rest ih =>
    intro w tr h1 h2 h3
    unfold qbufLoop
    dsimp only
    by_cases hacc : (e.qbufOk i) = true ∧ devAccepts w.dev (mkQueueBuf i)
    · have hq : devQbuf w.dev (e.qbufOk i) (mkQueueBuf i) = (true, { w.dev with queued := w.dev.queued ++ [i], dequeued := w.dev.dequeued.erase i }) := by
        unfold devQbuf
        rw [if_pos hacc]
        rfl
      rw [hq, if_pos rfl]
      apply ih
      · dsimp only
        rw [List.nodup_append]
        refine ⟨h1, List.nodup_singleton i, ?_⟩
        intro a ha hb
        simp only [List.mem_singleton] at hb
        subst hb
        exact hacc.2.2.2.2 ha
      · dsimp only
        intro j hj
        rw [List.mem_append] at hj
        rcases hj with hj | hj
        · exact h2 j hj
        · simp only [List.mem_singleton] at hj
          subst hj
          exact hacc.2.2.2.1
      · dsimp only
        rw [h3]
        rfl
    · have hq : devQbuf w.dev (e.qbufOk i) (mkQueueBuf i) = (false, w.dev) := by
        unfold devQbuf
        rw [if_neg hacc]
      rw [hq]
      simp only [Bool.false_eq_true, if_false, ite_false]
      exact ⟨h1, h2, h3⟩

theorem initBuffers_cam_pres (w : World) (e : Ioc) :
    ((initBuffers w e).2.1.cam.streaming = w.cam.streaming) ∧
    ((initBuffers w e).2.1.cam.fd = w.cam.fd) ∧
    ((initBuffers w e).2.1.cam.current_buffer = w.cam.current_buffer) := by
  unfold initBuffers
  dsimp only
  split
  · exact ⟨rfl, rfl, rfl⟩
  · split
    · exact ⟨rfl, rfl, rfl⟩
    · split
      · exact ⟨rfl, rfl, rfl⟩
      · split <;> exact ⟨rfl, rfl, rfl⟩

theorem initBuffers_fail_mappings (w : World) (e : Ioc)
    (hpool : w.cam.buffer_start = none) (hfail : (initBuffers w e).1 = false) :
    liveMappings (initBuffers w e).2.1.cam = 0 := by
  by_cases hfd : w.cam.fd < 0
  · simp [initBuffers, hfd, liveMappings, hpool]
  · cases hds : w.dev.devStreaming with
    | true => simp [initBuffers, devReqbufs, hfd, hds, liveMappings, hpool]
    | false =>
      rcases hgr : e.reqbufs 4 with _ | g
      · simp [initBuffers, devReqbufs, hfd, hds, hgr, liveMappings, hpool]
      · by_cases hg : g < 2
        · simp [initBuffers, devReqbufs, hfd, hds, hgr, hg, liveMappings, hpool]
        · by_cases hil : (initLoop e (List.range g) (List.replicate g zeroBuf)
            (List.replicate g MapSlot.unset) []).1 = true
          · simp [initBuffers, devReqbufs, hfd, hds, hgr, hg, hil] at hfail
          · simp [initBuffers, devReqbufs, hfd, hds, hgr, hg, hil,
              liveMappings, freeBuffers]

theorem initBuffers_success_dev (w : World) (e : Ioc)
    (hok : (initBuffers w e).1 = true) :
    (initBuffers w e).2.1.dev.queued = [] ∧
    (initBuffers w e).2.1.dev.dequeued = [] ∧
    2 ≤ (initBuffers w e).2.1.dev.granted ∧ 0 ≤ w.cam.fd := by
  by_cases hfd : w.cam.fd < 0
  · simp [initBuffers, hfd] at hok
  · cases hds : w.dev.devStreaming with
    | true => simp [initBuffers, devReqbufs, hfd, hds] at hok
    | false =>
      rcases hgr : e.reqbufs 4 with _ | g
      · simp [initBuffers, devReqbufs, hfd, hds, hgr] at hok
      · by_cases hg : g < 2
        · simp [initBuffers, devReqbufs, hfd, hds, hgr, hg] at hok
        · by_cases hil : (initLoop e (List.range g) (List.replicate g zeroBuf)
            (List.replicate g MapSlot.unset) []).1 = true
          · simp only [initBuffers, devReqbufs, hfd, hds, hgr, hg, hil,
              if_false, if_true, if_neg, if_pos, ite_false, ite_true]
            simp [hfd, hg, hil]
            omega
          · simp [initBuffers, devReqbufs, hfd, hds, hgr, hg, hil] at hok

theorem startStreaming_success (w : World) (e : Ioc)
    (hs : (startStreaming w e).1 = true) :
    ((startStreaming w e).2.1).dev.queued.Nodup ∧
    (∀ i ∈ ((startStreaming w e).2.1).dev.queued,
      i < ((startStreaming w e).2.1).dev.granted) ∧
    ((startStreaming w e).2.1).dev.dequeued = [] ∧
    2 ≤ ((startStreaming w e).2.1).dev.granted := by
  by_cases hib : (initBuffers w e).1 = false
  · unfold startStreaming at hs
    simp only [hib, ite_true, if_pos] at hs
    cases hs
  · have hib' : (initBuffers w e).1 = true := by
      cases h : (initBuffers w e).1
      · exact absurd h hib
      · rfl
    obtain ⟨hq0, hd0, hg0, _⟩ := initBuffers_success_dev w e hib'
    have hql := qbufLoop_inv e (List.range (initBuffers w e).2.1.cam.buffer_count)
      (initBuffers w e).2.1 [] (by rw [hq0]; exact List.nodup_nil)
      (by intro i hi; rw [hq0] at hi; cases hi) hd0
    have hqg := qbufLoop_granted e (List.range (initBuffers w e).2.1.cam.buffer_count)
      (initBuffers w e).2.1 []
    unfold startStreaming at hs ⊢
    simp only [hib, ite_false, if_neg] at hs ⊢
    by_cases hql1 : (qbufLoop (initBuffers w e).2.1 e
        (List.range (initBuffers w e).2.1.cam.buffer_count) []).1 = false
    · simp only [hql1, ite_true, if_pos] at hs
      cases hs
    · simp only [hql1, ite_false, if_neg] at hs ⊢
      by_cases hfd : (qbufLoop (initBuffers w e).2.1 e
          (List.range (initBuffers w e).2.1.cam.buffer_count) []).2.1.cam.fd < 0
      · simp only [hfd, ite_true, if_pos] at hs
        cases hs
      · simp only [hfd, ite_false, if_neg] at hs ⊢
        by_cases hso : e.streamonOk = true
        · simp only [hso, ite_true, if_pos] at hs ⊢
          refine ⟨hql.1, hql.2.1, hql.2.2, ?_⟩
          rw [hqg]
          exact hg0
        · simp only [Bool.not_eq_true] at hso
          simp only [hso, Bool.false_eq_true, ite_false, if_neg] at hs
          cases hs

theorem stopStreaming_pres (w : World) (e : Ioc) :
    ((stopStreaming w e).2.1).cam.fd = w.cam.fd ∧
    ((stopStreaming w e).2.1).cam.buffers = w.cam.buffers ∧
    ((stopStreaming w e).2.1).cam.buffer_start = w.cam.buffer_start ∧
    ((stopStreaming w e).2.1).cam.buffer_count = w.cam.buffer_count ∧
    ((stopStreaming w e).2.1).cam.current_buffer = w.cam.current_buffer := by
  unfold stopStreaming
  split
  · exact ⟨rfl, rfl, rfl, rfl, rfl⟩
  · split
    · exact ⟨rfl, rfl, rfl, rfl, rfl⟩
    · split <;> exact ⟨rfl, rfl, rfl, rfl, rfl⟩

theorem setFormat_busy (w : World) (e : Ioc) (wd ht pf : Nat)
    (hg : w.dev.granted ≠ 0) :
    setFormat w e wd ht pf = (false, w, [Cmd.ioctlSFmt wd ht pf]) := by
  unfold setFormat
  by_cases hfd : w.cam.fd < 0
  · rw [if_pos hfd]
  · rw [if_neg hfd]
    have hd : devSFmt w.dev (e.sfmt wd ht pf) = (none, w.dev) := by
      unfold devSFmt
      rw [if_pos hg]
    simp only [hd]

theorem releaseFrame_rejected (w : World) (e : Ioc)
    (h : ¬ devAccepts w.dev w.cam.current_buffer) :
    (releaseFrame w e).1 = w := by
  unfold releaseFrame
  by_cases hfd : w.cam.fd < 0
  · rw [if_pos hfd]
  · rw [if_neg hfd]
    have hq : devQbuf w.dev (e.qbufOk w.cam.current_buffer.index)
        w.cam.current_buffer = (false, w.dev) := by
      unfold devQbuf
      rw [if_neg]
      intro hc
      exact h hc.2
    simp only [hq]

theorem initLoop_no_release (e : Ioc) (idxs : List Nat) :
    ∀ (bufs : List V4l2Buf) (slots : List MapSlot) (tr : List Cmd),
      Cmd.ioctlReqBufs 0 ∉ tr →
      Cmd.ioctlReqBufs 0 ∉ (initLoop e idxs bufs slots tr).2.2.2 := by
  induction idxs with
  | nil => intro bufs slots tr h; exact h
  | cons i rest ih =>
    intro bufs slots tr h
    unfold initLoop
    dsimp only
    rcases hq : e.querybuf i with _ | len
    · intro hmem
      rcases List.mem_append.mp hmem with hmem | hmem
      · exact h hmem
      · simp at hmem
    · rcases hm : e.mmapAddr i with _ | a
      · intro hmem
        rcases List.mem_append.mp hmem with hmem | hmem
        · rcases List.mem_append.mp hmem with hmem | hmem
          · exact h hmem
          · simp at hmem
        · simp at hmem
      · apply ih
        intro hmem
        rcases List.mem_append.mp hmem with hmem | hmem
        · rcases List.mem_append.mp hmem with hmem | hmem
          · exact h hmem
          · simp at hmem
        · simp at hmem

theorem freeBuffers_no_release (c : V4L2State) :
    Cmd.ioctlReqBufs 0 ∉ (freeBuffers c).2 := by
  unfold freeBuffers
  dsimp only
  rcases hbs : c.buffer_start with _ | slots
  · simp
  · intro hmem
    rw [List.mem_filterMap] at hmem
    obtain ⟨i, _, hf⟩ := hmem
    split at hf <;> simp_all

theorem initBuffers_no_release (w : World) (e : Ioc) :
    Cmd.ioctlReqBufs 0 ∉ (initBuffers w e).2.2 := by
  by_cases hfd : w.cam.fd < 0
  · simp [initBuffers, hfd]
  · cases hds : w.dev.devStreaming with
    | true => simp [initBuffers, devReqbufs, hfd, hds]
    | false =>
      rcases hgr : e.reqbufs 4 with _ | g
      · simp [initBuffers, devReqbufs, hfd, hds, hgr]
      · by_cases hg : g < 2
        · simp [initBuffers, devReqbufs, hfd, hds, hgr, hg]
        · by_cases hil : (initLoop e (List.range g) (List.replicate g zeroBuf)
            (List.replicate g MapSlot.unset) []).1 = true
          · simp only [initBuffers, devReqbufs, hfd, hds, hgr, hg, hil]
            simp [hfd, hg, hil]
            exact initLoop_no_release e (List.range g) _ _ [] (by simp)
          · simp only [initBuffers, devReqbufs, hfd, hds, hgr, hg, hil]
            simp [hfd, hg, hil]
            constructor
            · exact initLoop_no_release e (List.range g) _ _ [] (by simp)
            · exact freeBuffers_no_release _

theorem initBuffers_granted (w : World) (e : Ioc) (g : Nat)
    (hfd : ¬ w.cam.fd < 0) (hds : w.dev.devStreaming = false)
    (hgr : e.reqbufs 4 = some g) :
    (initBuffers w e).2.1.dev.granted = g := by
  by_cases hg : g < 2
  · simp [initBuffers, devReqbufs, hfd, hds, hgr, hg]
  · by_cases hil : (initLoop e (List.range g) (List.replicate g zeroBuf)
      (List.replicate g MapSlot.unset) []).1 = true
    · simp [initBuffers, devReqbufs, hfd, hds, hgr, hg, hil]
    · simp [initBuffers, devReqbufs, hfd, hds, hgr, hg, hil]

theorem pollRound_le_one (w : World) (r : RoundEnv)
    (hnd : w.dev.queued.Nodup) (hbd : ∀ i ∈ w.dev.queued, i < w.dev.granted)
    (hdq : w.dev.dequeued = []) (hrel : r.relOk = true) :
    (∀ u ∈ pollStates w r, inFlight u ≤ 1) ∧
    (pollRound w r).dev.queued.Nodup ∧
    (∀ i ∈ (pollRound w r).dev.queued, i < (pollRound w r).dev.granted) ∧
    (pollRound w r).dev.dequeued = [] := by
  unfold pollRound pollStates
  by_cases hstr : w.cam.streaming = false
  · have hg : getFrame w (roundIoc r) = (none, w, []) := by
      unfold getFrame
      rw [if_pos hstr]
    rw [hg]
    refine ⟨?_, hnd, hbd, hdq⟩
    intro u hu
    simp only [List.mem_singleton] at hu
    subst hu
    simp [inFlight, hdq]
  · by_cases hfd : w.cam.fd < 0
    · have hg : getFrame w (roundIoc r) =
          (none, { w with cam := { w.cam with current_buffer := mkQueueBuf 0 } }, [Cmd.ioctlDQBuf]) := by
        unfold getFrame
        rw [if_neg hstr]
        dsimp only
        rw [if_pos hfd]
      rw [hg]
      refine ⟨?_, hnd, hbd, hdq⟩
      intro u hu
      simp only [List.mem_singleton] at hu
      subst hu
      simp [inFlight, hdq]
    · rcases hpick : (roundIoc r).dqbuf with _ | p
      · have hg : getFrame w (roundIoc r) =
            (none, { w with cam := { w.cam with current_buffer := mkQueueBuf 0 } }, [Cmd.ioctlDQBuf]) := by
          unfold getFrame
          rw [if_neg hstr]
          dsimp only
          rw [if_neg hfd, hpick]
          rfl
        rw [hg]
        refine ⟨?_, hnd, hbd, hdq⟩
        intro u hu
        simp only [List.mem_singleton] at hu
        subst hu
        simp [inFlight, hdq]
      · rcases p with ⟨i, used⟩
        by_cases hcond : w.dev.devStreaming = true ∧ i ∈ w.dev.queued
        · have hd : devDqbuf w.dev ((roundIoc r).dqbuf) =
              (some (i, used), { w.dev with queued := w.dev.queued.erase i, dequeued := w.dev.dequeued ++ [i] }) := by
            rw [hpick]
            unfold devDqbuf
            dsimp only
            rw [if_pos hcond]
          have hg : getFrame w (roundIoc r) =
              (some (i, used), { w with cam := { w.cam with current_buffer := { mkQueueBuf 0 with index := i, bytesused := used } }, dev := { w.dev with queued := w.dev.queued.erase i, dequeued := w.dev.dequeued ++ [i] } }, [Cmd.ioctlDQBuf]) := by
            unfold getFrame
            rw [if_neg hstr]
            dsimp only
            rw [if_neg hfd, hd]
          rw [hg]
          dsimp only
          have hib : i < w.dev.granted := hbd i hcond.2
          have hini : i ∉ w.dev.queued.erase i := by
            intro hmem
            rcases (List.Nodup.mem_erase_iff hnd).mp hmem with ⟨hne, _⟩
            exact hne rfl
          have hq : devQbuf { w.dev with queued := w.dev.queued.erase i, dequeued := w.dev.dequeued ++ [i] } (r.relOk) { mkQueueBuf 0 with index := i, bytesused := used } = (true, { w.dev with queued := w.dev.queued.erase i ++ [i], dequeued := (w.dev.dequeued ++ [i]).erase i }) := by
            unfold devQbuf
            rw [if_pos]
            constructor
            · exact hrel
            · exact ⟨rfl, rfl, hib, hini⟩
          have hr2 : releaseFrame { w with cam := { w.cam with current_buffer := { mkQueueBuf 0 with index := i, bytesused := used } }, dev := { w.dev with queued := w.dev.queued.erase i, dequeued := w.dev.dequeued ++ [i] } } (roundIoc r) = ({ w with cam := { w.cam with current_buffer := { mkQueueBuf 0 with index := i, bytesused := used } }, dev := { w.dev with queued := w.dev.queued.erase i ++ [i], dequeued := (w.dev.dequeued ++ [i]).erase i } }, [Cmd.ioctlQBuf { mkQueueBuf 0 with index := i, bytesused := used }]) := by
            unfold releaseFrame
            dsimp only
            rw [if_neg hfd]
            unfold roundIoc
            dsimp only
            rw [hq]
          rw [hr2]
          dsimp only
          refine ⟨?_, ?_, ?_, ?_⟩
          · intro u hu
            simp only [List.mem_cons, List.mem_singleton] at hu
            rcases hu with hu | hu | hu
            · subst hu
              simp [inFlight, hdq]
            · subst hu
              simp [inFlight, hdq]
            · cases hu
          · rw [List.nodup_append]
            refine ⟨hnd.erase i, List.nodup_singleton i, ?_⟩
            intro a ha hb
            simp only [List.mem_singleton] at hb
            subst hb
            exact hini ha
          · intro j hj
            rcases List.mem_append.mp hj with hj | hj
            · exact hbd j (List.mem_of_mem_erase hj)
            · simp only [List.mem_singleton] at hj
              subst hj
              exact hib
          · simp [hdq]
        · have hd : devDqbuf w.dev ((roundIoc r).dqbuf) = (none, w.dev) := by
            rw [hpick]
            unfold devDqbuf
            dsimp only
            rw [if_neg hcond]
          have hg : getFrame w (roundIoc r) =
              (none, { w with cam := { w.cam with current_buffer := mkQueueBuf 0 } }, [Cmd.ioctlDQBuf]) := by
            unfold getFrame
            rw [if_neg hstr]
            dsimp only
            rw [if_neg hfd, hd]
          rw [hg]
          refine ⟨?_, hnd, hbd, hdq⟩
          intro u hu
          simp only [List.mem_singleton] at hu
          subst hu
          simp [inFlight, hdq]

theorem runPolls_le_one (rs : List RoundEnv) :
    ∀ w : World, w.dev.queued.Nodup → (∀ i ∈ w.dev.queued, i < w.dev.granted) →
      w.dev.dequeued = [] → allRelOk rs → allLeOne (runPolls w rs) := by
  induction rs with
  | nil =>
    intro w _ _ _ _
    intro u hu
    cases hu
  | cons r rest ih =>
    intro w h1 h2 h3 hall
    unfold allRelOk at hall
    have hr := pollRound_le_one w r h1 h2 h3 (hall r (List.mem_cons_self r rest))
    intro u hu
    unfold runPolls at hu
    rcases List.mem_append.mp hu with hu | hu
    · exact hr.1 u hu
    · exact ih (pollRound w r) hr.2.1 hr.2.2.1 hr.2.2.2
        (fun q hq => hall q (List.mem_cons_of_mem r hq)) u hu

theorem queryCapabilities_tr (w : World) (e : Ioc) :
    (queryCapabilities w e).2 = [Cmd.ioctlQueryCap] := by
  unfold queryCapabilities
  split
  · rfl
  · split <;> rfl

theorem close_fields (w : World) (e : Ioc) :
    (close w e).1.cam.buffers = none ∧ (close w e).1.cam.buffer_start = none ∧
    (close w e).1.cam.buffer_count = 0 ∧ (close w e).1.cam.fd < 0 := by
  unfold close
  dsimp only
  split
  · split
    · refine ⟨rfl, rfl, rfl, ?_⟩
      dsimp only
      decide
    · rename_i h
      refine ⟨rfl, rfl, rfl, ?_⟩
      dsimp only
      omega
  · split
    · refine ⟨rfl, rfl, rfl, ?_⟩
      dsimp only
      decide
    · rename_i h
      refine ⟨rfl, rfl, rfl, ?_⟩
      dsimp only
      omega

theorem close_when_closed (p : World) (e : Ioc)
    (h2 : p.cam.buffers = none) (h1 : p.cam.buffer_start = none)
    (h3 : p.cam.buffer_count = 0) (h4 : p.cam.fd < 0) :
    close p e = (p, if p.cam.streaming then [Cmd.ioctlStreamOff] else []) := by
  obtain ⟨cam, dev⟩ := p
  obtain ⟨fd, cb, bufs, bstart, cnt, str⟩ := cam
  dsimp only at h1 h2 h3 h4 ⊢
  subst h1 h2 h3
  have h5 : ¬ 0 ≤ fd := by omega
  cases str
  · simp [close, freeBuffers, stopStreaming, h5]
  · simp [close, freeBuffers, stopStreaming, h4, h5]

theorem close_fresh_trace (w : World) (e : Ioc)
    (hstr : w.cam.streaming = false) (hpool : w.cam.buffer_start = none)
    (hfd : 0 ≤ w.cam.fd) :
    (close w e).2 = [Cmd.closeFd w.cam.fd] ∧ (close w e).1.cam.fd = -1 ∧
    (close w e).1.cam.streaming = false := by
  obtain ⟨cam, dev⟩ := w
  obtain ⟨fd, cb, bufs, bstart, cnt, str⟩ := cam
  dsimp only at hstr hpool hfd ⊢
  subst hstr hpool
  simp [close, freeBuffers, hfd]

theorem findBulkInAux_isSome (eps : List UsbEndpoint) :
    ∀ j : Nat, ((findBulkInAux eps j).isSome = true ↔
      ∃ ep ∈ eps, ep.etype = USB_ENDPOINT_XFER_BULK ∧ ep.direction = USB_DIR_IN) := by
  induction eps with
  | nil => intro j; simp [findBulkInAux]
  | cons ep rest ih =>
    intro j
    unfold findBulkInAux
    by_cases hm : ep.etype = USB_ENDPOINT_XFER_BULK ∧ ep.direction = USB_DIR_IN
    · rw [if_pos hm]
      simp only [Option.isSome_some, true_iff]
      exact ⟨ep, List.mem_cons_self ep rest, hm.1, hm.2⟩
    · rw [if_neg hm]
      rw [ih (j + 1)]
      constructor
      · rintro ⟨q, hq, h⟩
        exact ⟨q, List.mem_cons_of_mem ep hq, h⟩
      · rintro ⟨q, hq, h⟩
        rcases List.mem_cons.mp hq with rfl | hq
        · exact absurd h hm
        · exact ⟨q, hq, h⟩

theorem findStreamingInterface_iff (ifaces : List UsbInterface) :
    findStreamingInterface ifaces = true ↔
      ∃ it ∈ ifaces, it.iclass = UVC_INTERFACE_CLASS ∧
        it.isubclass = UVC_INTERFACE_SUBCLASS_STREAMING ∧ it.claimOk = true := by
  induction ifaces with
  | nil => simp [findStreamingInterface]
  | cons it rest ih =>
    unfold findStreamingInterface
    by_cases hm : it.iclass = UVC_INTERFACE_CLASS ∧ it.isubclass = UVC_INTERFACE_SUBCLASS_STREAMING
    · rw [if_pos hm]
      cases hc : it.claimOk
      · simp only [Bool.false_eq_true, if_false, ite_false]
        rw [ih]
        constructor
        · rintro ⟨q, hq, h⟩
          exact ⟨q, List.mem_cons_of_mem it hq, h⟩
        · rintro ⟨q, hq, h1, h2, h3⟩
          rcases List.mem_cons.mp hq with rfl | hq
          · rw [hc] at h3
            cases h3
          · exact ⟨q, hq, h1, h2, h3⟩
      · simp only [if_true, ite_true, true_iff]
        exact ⟨it, List.mem_cons_self it rest, hm.1, hm.2, hc⟩
    · rw [if_neg hm]
      rw [ih]
      constructor
      · rintro ⟨q, hq, h⟩
        exact ⟨q, List.mem_cons_of_mem it hq, h⟩
      · rintro ⟨q, hq, h1, h2, h3⟩
        rcases List.mem_cons.mp hq with rfl | hq
        · exact absurd ⟨h1, h2⟩ hm
        · exact ⟨q, hq, h1, h2, h3⟩

/-- C1, counterexample: with the driver granting 4 buffers and every mmap
succeeding, a QBUF failure at index 1 makes `startStreaming` fail AFTER
the pool is built, yet the post-state keeps 4 live mappings and buffer 0
queued at the device — no rollback to a zero-mapping FormatSet state
takes place. -/
theorem c1_counterexample :
    (startStreaming wFmt iocQbufFail).1 = false ∧
    liveMappings (startStreaming wFmt iocQbufFail).2.1.cam = 4 ∧
    (startStreaming wFmt iocQbufFail).2.1.dev.queued = [0] ∧
    (startStreaming wFmt iocQbufFail).2.1.cam.buffer_count = 4 := by decide

/-- C1 (amended): rollback in `startStreaming` exists only inside
`initBuffers`.  From a state with no pool and not streaming: any failure
during pool initialization leaves zero live mappings and the streaming
flag false (the call returns exactly the `initBuffers` result); but when
`initBuffers` succeeded and a subsequent QBUF or STREAMON fails, the
camera state is exactly the post-`initBuffers` state — the mapped pool
is retained and nothing is rolled back. -/
theorem c1_startStreaming_rollback (w : World) (e : Ioc)
    (hpool : w.cam.buffer_start = none) (hstr : w.cam.streaming = false) :
    ((startStreaming w e).1 = false → (startStreaming w e).2.1.cam.streaming = false) ∧
    ((initBuffers w e).1 = false → startStreaming w e = initBuffers w e ∧
      liveMappings (startStreaming w e).2.1.cam = 0) ∧
    ((initBuffers w e).1 = true → (startStreaming w e).1 = false →
      (startStreaming w e).2.1.cam = (initBuffers w e).2.1.cam) := by
  by_cases hib : (initBuffers w e).1 = false
  · have hss : startStreaming w e = initBuffers w e := by
      unfold startStreaming
      simp only [hib, ite_true, if_pos]
    refine ⟨?_, ?_, ?_⟩
    · intro _
      rw [hss, (initBuffers_cam_pres w e).1]
      exact hstr
    · intro _
      exact ⟨hss, by rw [hss]; exact initBuffers_fail_mappings w e hpool hib⟩
    · intro h
      rw [h] at hib
      simp at hib
  · have hcam := qbufLoop_cam e (List.range (initBuffers w e).2.1.cam.buffer_count)
      (initBuffers w e).2.1 []
    have hcp := initBuffers_cam_pres w e
    have hpost : (startStreaming w e).1 = false →
        (startStreaming w e).2.1.cam = (initBuffers w e).2.1.cam := by
      unfold startStreaming
      simp only [hib, ite_false, if_neg]
      by_cases hql : (qbufLoop (initBuffers w e).2.1 e
          (List.range (initBuffers w e).2.1.cam.buffer_count) []).1 = false
      · simp only [hql, ite_true, if_pos]
        intro _
        exact hcam
      · simp only [hql, ite_false, if_neg]
        by_cases hfd : (qbufLoop (initBuffers w e).2.1 e
            (List.range (initBuffers w e).2.1.cam.buffer_count) []).2.1.cam.fd < 0
        · simp only [hfd, ite_true, if_pos]
          intro _
          exact hcam
        · simp only [hfd, ite_false, if_neg]
          by_cases hso : e.streamonOk = true
          · simp only [hso, ite_true, if_pos]
            intro h
            cases h
          · simp only [Bool.not_eq_true] at hso
            simp only [hso, Bool.false_eq_true, ite_false, if_neg]
            intro _
            exact hcam
    refine ⟨?_, ?_, ?_⟩
    · intro hf
      rw [hpost hf, hcp.1]
      exact hstr
    · intro h
      exact absurd h hib
    · intro _ hf
      exact hpost hf

/-- C1, witness: the amended theorem applied to a concrete run in which
the driver grants only one buffer. -/
theorem c1_witness :
    wFmt.cam.buffer_start = none ∧ wFmt.cam.streaming = false ∧
    (((startStreaming wFmt iocGrantOne).1 = false →
       (startStreaming wFmt iocGrantOne).2.1.cam.streaming = false) ∧
     ((initBuffers wFmt iocGrantOne).1 = false →
       startStreaming wFmt iocGrantOne = initBuffers wFmt iocGrantOne ∧
       liveMappings (startStreaming wFmt iocGrantOne).2.1.cam = 0) ∧
     ((initBuffers wFmt iocGrantOne).1 = true →
       (startStreaming wFmt iocGrantOne).1 = false →
       (startStreaming wFmt iocGrantOne).2.1.cam =
         (initBuffers wFmt iocGrantOne).2.1.cam)) :=
  ⟨by decide, by decide,
   c1_startStreaming_rollback wFmt iocGrantOne (by decide) (by decide)⟩

/-- C2, counterexample: with mmap failing at index 1, `initBuffers`
fails and unmaps the previously mapped buffer 0 (zero mappings remain),
but the owning buffer request is NOT released: the device-side
allocation stays at 4 and no releasing `REQBUFS(0)` appears in the
trace. -/
theorem c2_counterexample :
    (initBuffers wFmt iocMmapFail).1 = false ∧
    liveMappings (initBuffers wFmt iocMmapFail).2.1.cam = 0 ∧
    Cmd.munmapCall 4096 100 ∈ (initBuffers wFmt iocMmapFail).2.2 ∧
    (initBuffers wFmt iocMmapFail).2.1.dev.granted = 4 ∧
    Cmd.ioctlReqBufs 0 ∉ (initBuffers wFmt iocMmapFail).2.2 := by decide

/-- C2 (amended): from a fresh camera with an open fd, if the driver
grants fewer than 2 buffers `initBuffers` fails leaving the camera
untouched; every failure leaves zero live mappings; and regardless of
the failure mode the device-side allocation granted by REQBUFS is kept —
no releasing `REQBUFS(0)` is ever issued. -/
theorem c2_initBuffers_rollback (w : World) (e : Ioc) (g : Nat)
    (hpool : w.cam.buffer_start = none) (hfd : 0 ≤ w.cam.fd)
    (hds : w.dev.devStreaming = false) (hgr : e.reqbufs 4 = some g) :
    (g < 2 → (initBuffers w e).1 = false ∧ (initBuffers w e).2.1.cam = w.cam) ∧
    ((initBuffers w e).1 = false → liveMappings (initBuffers w e).2.1.cam = 0) ∧
    (initBuffers w e).2.1.dev.granted = g ∧
    Cmd.ioctlReqBufs 0 ∉ (initBuffers w e).2.2 := by
  have hfd2 : ¬ w.cam.fd < 0 := by omega
  refine ⟨?_, fun h => initBuffers_fail_mappings w e hpool h,
    initBuffers_granted w e g hfd2 hds hgr, initBuffers_no_release w e⟩
  intro hg
  constructor
  · simp [initBuffers, devReqbufs, hfd2, hds, hgr, hg]
  · simp [initBuffers, devReqbufs, hfd2, hds, hgr, hg]

/-- C2, witness: the amended theorem applied to the concrete
mmap-failure run. -/
theorem c2_witness :
    wFmt.cam.buffer_start = none ∧ 0 ≤ wFmt.cam.fd ∧
    wFmt.dev.devStreaming = false ∧ iocMmapFail.reqbufs 4 = some 4 ∧
    ((4 < 2 → (initBuffers wFmt iocMmapFail).1 = false ∧
       (initBuffers wFmt iocMmapFail).2.1.cam = wFmt.cam) ∧
     ((initBuffers wFmt iocMmapFail).1 = false →
       liveMappings (initBuffers wFmt iocMmapFail).2.1.cam = 0) ∧
     (initBuffers wFmt iocMmapFail).2.1.dev.granted = 4 ∧
     Cmd.ioctlReqBufs 0 ∉ (initBuffers wFmt iocMmapFail).2.2) :=
  ⟨by decide, by decide, by decide, by decide,
   c2_initBuffers_rollback wFmt iocMmapFail 4 (by decide) (by decide) (by decide) (by decide)⟩

/-- C3, counterexample: on the USB backend, `setFormat` called while
streaming SUCCEEDS and has side effects: the stored format and
frame-buffer size change and the previous frame buffer is leaked —
contradicting "returns InvalidState and has no side effect" on that
backend. -/
theorem c3_counterexample :
    uStreaming.streaming = true ∧
    (uvcSetFormat uStreaming 320 240).1 = true ∧
    (uvcSetFormat uStreaming 320 240).2.width = 320 ∧
    (uvcSetFormat uStreaming 320 240).2.frameBufferSize = 153600 ∧
    (uvcSetFormat uStreaming 320 240).2.leaked ≠ [] := by decide

/-- C3 (amended): on the kernel backend, `setFormat` after a successful
`startStreaming` fails and changes nothing — but only because the device
itself rejects S_FMT (EBUSY) while buffers are allocated; the code has
no state check.  On the USB backend `setFormat` is unguarded: called
while streaming it succeeds and replaces the format and frame buffer. -/
theorem c3_setFormat_while_streaming (w : World) (e e2 : Ioc)
    (wd ht pf : Nat) (u : UVCState)
    (hs : (startStreaming w e).1 = true) (hu : u.streaming = true) :
    setFormat (startStreaming w e).2.1 e2 wd ht pf =
      (false, (startStreaming w e).2.1, [Cmd.ioctlSFmt wd ht pf]) ∧
    (uvcSetFormat u wd ht).1 = true ∧ (uvcSetFormat u wd ht).2.width = wd ∧
    (uvcSetFormat u wd ht).2.height = ht ∧
    (uvcSetFormat u wd ht).2.frameBufferSize = wd * ht * 2 ∧
    (uvcSetFormat u wd ht).2.streaming = true := by
  refine ⟨?_, rfl, rfl, rfl, rfl, hu⟩
  apply setFormat_busy
  have h := (startStreaming_success w e hs).2.2.2
  omega

/-- C3, witness: the amended theorem at a concrete streaming run of
both backends. -/
theorem c3_witness :
    (startStreaming wFmt iocAllOk).1 = true ∧ uStreaming.streaming = true ∧
    (setFormat (startStreaming wFmt iocAllOk).2.1 iocAllOk 320 240 V4L2_PIX_FMT_YUYV =
      (false, (startStreaming wFmt iocAllOk).2.1,
        [Cmd.ioctlSFmt 320 240 V4L2_PIX_FMT_YUYV]) ∧
     (uvcSetFormat uStreaming 320 240).1 = true ∧
     (uvcSetFormat uStreaming 320 240).2.width = 320 ∧
     (uvcSetFormat uStreaming 320 240).2.height = 240 ∧
     (uvcSetFormat uStreaming 320 240).2.frameBufferSize = 320 * 240 * 2 ∧
     (uvcSetFormat uStreaming 320 240).2.streaming = true) :=
  ⟨by decide, by decide,
   c3_setFormat_while_streaming wFmt iocAllOk iocAllOk 320 240 V4L2_PIX_FMT_YUYV
     uStreaming (by decide) (by decide)⟩

/-- C4: after any successful `startStreaming`, any number of polling
rounds — each `getFrame` followed, when a frame was returned, by
`releaseFrame` before the next request, which is the call discipline in
the claim — with the driver accepting each requeue, leaves at most one
buffer InFlight at every intermediate point. -/
theorem c4_single_inflight (w : World) (e : Ioc) (rs : List RoundEnv)
    (hs : (startStreaming w e).1 = true) (hr : allRelOk rs) :
    allLeOne (runPolls (startStreaming w e).2.1 rs) := by
  obtain ⟨h1, h2, h3, _⟩ := startStreaming_success w e hs
  exact runPolls_le_one rs (startStreaming w e).2.1 h1 h2 h3 hr

/-- C4, witness: the invariant on a concrete streaming run with three
polling rounds. -/
theorem c4_witness :
    (startStreaming wFmt iocAllOk).1 = true ∧ allRelOk rounds0 ∧
    allLeOne (runPolls (startStreaming wFmt iocAllOk).2.1 rounds0) :=
  ⟨by decide, by decide,
   c4_single_inflight wFmt iocAllOk rounds0 (by decide) (by decide)⟩

/-- C5, counterexample: after stream, getFrame (buffer 2),
releaseFrame, stopStreaming, then a restart whose QBUF loop fails at
index 1: no buffer is InFlight and there has been no successful getFrame
since the last releaseFrame, yet `releaseFrame` is NOT a no-op — the
stale `current_buffer_` (index 2) is a valid requeue for the rebuilt
allocation, so the device queue changes from [0] to [0, 2]. -/
theorem c5_counterexample :
    w5e.dev.dequeued = [] ∧ w5e.dev.queued = [0] ∧
    (releaseFrame w5e iocAllOk).1.dev.queued = [0, 2] ∧
    (releaseFrame w5e iocAllOk).1 ≠ w5e := by decide

/-- C5 (amended): `releaseFrame` never reports an error on either
backend; on USB it is literally a no-op, and on the kernel backend it
leaves the state unchanged whenever the retained buffer descriptor is
invalid (such as the zeroed descriptor of a fresh camera) or names a
buffer already queued at the device (such as right after a successful
requeue) — but not in every no-InFlight state, see the
counterexample. -/
theorem c5_releaseFrame_noop (u : UVCState) (w w2 : World) (e e2 : Ioc)
    (h1 : w.cam.current_buffer.bufType ≠ capBufType)
    (h2 : w2.cam.current_buffer.index ∈ w2.dev.queued) :
    uvcReleaseFrame u = u ∧ (releaseFrame w e).1 = w ∧ (releaseFrame w2 e2).1 = w2 := by
  refine ⟨rfl, ?_, ?_⟩
  · apply releaseFrame_rejected
    intro hacc
    exact h1 hacc.1
  · apply releaseFrame_rejected
    intro hacc
    exact hacc.2.2.2 h2

/-- C5, witness: the amended theorem at the fresh camera and at a
state whose current buffer is queued. -/
theorem c5_witness :
    initialWorld.cam.current_buffer.bufType ≠ capBufType ∧
    w5c.cam.current_buffer.index ∈ w5c.dev.queued ∧
    (uvcReleaseFrame uvcInitial = uvcInitial ∧
     (releaseFrame initialWorld iocAllOk).1 = initialWorld ∧
     (releaseFrame w5c iocAllOk).1 = w5c) :=
  ⟨by decide, by decide,
   c5_releaseFrame_noop uvcInitial initialWorld w5c iocAllOk iocAllOk
     (by decide) (by decide)⟩

theorem close_trace_closedFd (w : World) (e : Ioc)
    (hstr : w.cam.streaming = false) (hpool : w.cam.buffer_start = none)
    (hfd : w.cam.fd < 0) :
    (close w e).2 = [] := by
  obtain ⟨cam, dev⟩ := w
  obtain ⟨fd, cb, bufs, bstart, cnt, str⟩ := cam
  dsimp only at hstr hpool hfd ⊢
  subst hstr hpool
  have h5 : ¬ 0 ≤ fd := by omega
  simp [close, freeBuffers, h5]

/-- C6, counterexample: `openByFd` adopting descriptor 5 whose
capability query fails returns false and abandons the handle: `fd_` is
reset to -1 without any `::close(5)` in the trace, and the subsequent
`close` releases nothing — the transferred handle is never released by
the camera. -/
theorem c6_counterexample :
    (openByFd initialWorld iocNoCapture 5).1 = false ∧
    (openByFd initialWorld iocNoCapture 5).2.1.cam.fd = -1 ∧
    Cmd.closeFd 5 ∉ (openByFd initialWorld iocNoCapture 5).2.2 ∧
    (close (openByFd initialWorld iocNoCapture 5).2.1 iocAllOk).2 = [] := by decide

/-- C6 (amended): a handle acquired by `open(path)` is released
exactly once — inside `open` itself when the capability check fails,
otherwise by the first `close`, after which a second `close` releases
nothing; a handle adopted by `openByFd` is released exactly once by
`close` when the open succeeded, but when the capability check fails the
handle is dropped without ever being closed. -/
theorem c6_handle_release (w : World) (e e2 e3 : Ioc) (fdv : Nat) (fdt : Int)
    (hstr : w.cam.streaming = false) (hpool : w.cam.buffer_start = none)
    (hof : e.openFd = some fdv) (hft : 0 ≤ fdt) :
    ((openPath w e).1 = false →
      countCmd (Cmd.closeFd (fdv : Int)) (openPath w e).2.2 = 1) ∧
    ((openPath w e).1 = true →
      countCmd (Cmd.closeFd (fdv : Int)) (openPath w e).2.2 = 0 ∧
      (close (openPath w e).2.1 e2).2 = [Cmd.closeFd (fdv : Int)] ∧
      (close (close (openPath w e).2.1 e2).1 e3).2 = []) ∧
    ((openByFd w e fdt).1 = true →
      (close (openByFd w e fdt).2.1 e2).2 = [Cmd.closeFd fdt]) ∧
    ((openByFd w e fdt).1 = false →
      ((openByFd w e fdt).2.2.all fun c => !(isCloseCmd c)) = true ∧
      (openByFd w e fdt).2.1.cam.fd = -1 ∧
      (close (openByFd w e fdt).2.1 e2).2 = []) := by
  have hcaliforniaq := queryCapabilities_tr { w with cam := { w.cam with fd := (fdv : Int) } } e
  have hft2 : ¬ fdt < 0 := by omega
  refine ⟨?_, ?_, ?_, ?_⟩
  · intro hfail
    unfold openPath at hfail ⊢
    rw [hof] at hfail ⊢
    dsimp only at hfail ⊢
    by_cases hq : (queryCapabilities { w with cam := { w.cam with fd := (fdv : Int) } } e).1 = true
    · rw [if_pos hq] at hfail
      cases hfail
    · rw [if_neg hq]
      rw [hcaliforniaq]
      simp [countCmd]
  · intro hok
    unfold openPath at hok ⊢
    rw [hof] at hok ⊢
    dsimp only at hok ⊢
    by_cases hq : (queryCapabilities { w with cam := { w.cam with fd := (fdv : Int) } } e).1 = true
    · rw [if_pos hq]
      dsimp only
      have hfd1 : (0 : Int) ≤ (fdv : Int) := Int.natCast_nonneg fdv
      have hct := close_fresh_trace { w with cam := { w.cam with fd := (fdv : Int) } } e2 hstr hpool hfd1
      refine ⟨?_, hct.1, ?_⟩
      · rw [hcaliforniaq]
        simp [countCmd]
      · obtain ⟨cb2, cb1, cb3, cb4⟩ := close_fields { w with cam := { w.cam with fd := (fdv : Int) } } e2
        exact close_trace_closedFd _ e3 hct.2.2 cb1 cb4
    · rw [if_neg hq] at hok
      cases hok
  · intro hok
    unfold openByFd at hok ⊢
    rw [if_neg hft2] at hok ⊢
    dsimp only at hok ⊢
    by_cases hq : (queryCapabilities { w with cam := { w.cam with fd := fdt } } e).1 = true
    · rw [if_pos hq]
      dsimp only
      exact (close_fresh_trace { w with cam := { w.cam with fd := fdt } } e2 hstr hpool hft).1
    · rw [if_neg hq] at hok
      cases hok
  · intro hfail
    unfold openByFd at hfail ⊢
    rw [if_neg hft2] at hfail ⊢
    dsimp only at hfail ⊢
    by_cases hq : (queryCapabilities { w with cam := { w.cam with fd := fdt } } e).1 = true
    · rw [if_pos hq] at hfail
      cases hfail
    · rw [if_neg hq]
      dsimp only
      refine ⟨?_, rfl, ?_⟩
      · rw [queryCapabilities_tr]
        rfl
      · exact close_trace_closedFd _ e2 hstr hpool (by simp)

/-- C6, witness: the amended theorem at a concrete failing open. -/
theorem c6_witness :
    initialWorld.cam.streaming = false ∧
    initialWorld.cam.buffer_start = none ∧
    iocNoCapture.openFd = some 3 ∧ (0 : Int) ≤ 5 ∧
    (((openPath initialWorld iocNoCapture).1 = false →
       countCmd (Cmd.closeFd ((3 : Nat) : Int)) (openPath initialWorld iocNoCapture).2.2 = 1) ∧
     ((openPath initialWorld iocNoCapture).1 = true →
       countCmd (Cmd.closeFd ((3 : Nat) : Int)) (openPath initialWorld iocNoCapture).2.2 = 0 ∧
       (close (openPath initialWorld iocNoCapture).2.1 iocAllOk).2 = [Cmd.closeFd ((3 : Nat) : Int)] ∧
       (close (close (openPath initialWorld iocNoCapture).2.1 iocAllOk).1 iocAllOk).2 = []) ∧
     ((openByFd initialWorld iocNoCapture 5).1 = true →
       (close (openByFd initialWorld iocNoCapture 5).2.1 iocAllOk).2 = [Cmd.closeFd 5]) ∧
     ((openByFd initialWorld iocNoCapture 5).1 = false →
       ((openByFd initialWorld iocNoCapture 5).2.2.all fun c => !(isCloseCmd c)) = true ∧
       (openByFd initialWorld iocNoCapture 5).2.1.cam.fd = -1 ∧
       (close (openByFd initialWorld iocNoCapture 5).2.1 iocAllOk).2 = [])) :=
  ⟨by decide, by decide, by decide, by decide,
   c6_handle_release initialWorld iocNoCapture iocAllOk iocAllOk 3 5
     (by decide) (by decide) (by decide) (by decide)⟩

/-- C7: `close` is safe from any state on both backends.  Kernel
backend: the post-state is closed (`isOpen` false) with both arrays
dropped and zero live mappings; a second `close` leaves the state
unchanged and performs no munmap and no `::close` (no double free).
USB backend: `close` frees the frame buffer, drops every global
reference, nulls the env, and is idempotent (the hypothesis — a camera
that never saw a JNI env holds no global references — holds in every
reachable state, since `open` stores the env before the references). -/
theorem c7_close_safe (w : World) (e1 e2 : Ioc) (u : UVCState)
    (henv : u.hasEnv = false →
      u.usbConnection = false ∧ u.usbDevice = false ∧ u.bulkEndpoint = none) :
    isOpen (close w e1).1.cam = false ∧
    (close w e1).1.cam.buffer_start = none ∧
    liveMappings (close w e1).1.cam = 0 ∧
    (close (close w e1).1 e2).1 = (close w e1).1 ∧
    ((close (close w e1).1 e2).2.all fun c => !(isMunmap c || isCloseCmd c)) = true ∧
    (uvcClose u).frameBuffer = none ∧ (uvcClose u).usbConnection = false ∧
    (uvcClose u).usbDevice = false ∧ (uvcClose u).bulkEndpoint = none ∧
    (uvcClose u).hasEnv = false ∧ uvcClose (uvcClose u) = uvcClose u := by
  obtain ⟨hb2, hb1, hb3, hb4⟩ := close_fields w e1
  have hcc := close_when_closed (close w e1).1 e2 hb2 hb1 hb3 hb4
  have huvc : (uvcClose u).frameBuffer = none ∧ (uvcClose u).usbConnection = false ∧
      (uvcClose u).usbDevice = false ∧ (uvcClose u).bulkEndpoint = none ∧
      (uvcClose u).hasEnv = false ∧ uvcClose (uvcClose u) = uvcClose u := by
    obtain ⟨he, uc, ud, be, wd0, ht0, str, fb, fbs, na, lk⟩ := u
    cases he
    · obtain ⟨huc, hud, hbe⟩ := henv rfl
      dsimp only at huc hud hbe
      subst huc hud hbe
      cases str <;> rcases fb with _ | a <;> simp [uvcClose, uvcStopStreaming]
    · cases str <;> rcases fb with _ | a <;> simp [uvcClose, uvcStopStreaming]
  refine ⟨?_, hb1, ?_, ?_, ?_, huvc.1, huvc.2.1, huvc.2.2.1, huvc.2.2.2.1,
    huvc.2.2.2.2.1, huvc.2.2.2.2.2⟩
  · simp only [isOpen, decide_eq_false_iff_not]
    omega
  · simp [liveMappings, hb1]
  · rw [hcc]
  · rw [hcc]
    cases hstrp : (close w e1).1.cam.streaming <;>
      simp [hstrp, isMunmap, isCloseCmd]

/-- C7, witness: `close` applied to the failed-restart state `w5e`
(streaming off, full pool mapped) and to a fresh UVC camera. -/
theorem c7_witness :
    (uvcInitial.hasEnv = false →
      uvcInitial.usbConnection = false ∧ uvcInitial.usbDevice = false ∧
      uvcInitial.bulkEndpoint = none) ∧
    (isOpen (close w5e iocAllOk).1.cam = false ∧
     (close w5e iocAllOk).1.cam.buffer_start = none ∧
     liveMappings (close w5e iocAllOk).1.cam = 0 ∧
     (close (close w5e iocAllOk).1 iocAllOk).1 = (close w5e iocAllOk).1 ∧
     ((close (close w5e iocAllOk).1 iocAllOk).2.all
       fun c => !(isMunmap c || isCloseCmd c)) = true ∧
     (uvcClose uvcInitial).frameBuffer = none ∧
     (uvcClose uvcInitial).usbConnection = false ∧
     (uvcClose uvcInitial).usbDevice = false ∧
     (uvcClose uvcInitial).bulkEndpoint = none ∧
     (uvcClose uvcInitial).hasEnv = false ∧
     uvcClose (uvcClose uvcInitial) = uvcClose uvcInitial) :=
  ⟨by decide, c7_close_safe w5e iocAllOk iocAllOk uvcInitial (by decide)⟩

/-- C8, counterexample: two devices accepting different formats
(640×480 verbatim vs a silently substituted 320×240) for the same
request produce identical `setFormat` results and identical camera
objects — nothing returned to the caller carries the negotiated format,
so it cannot be read back. -/
theorem c8_counterexample :
    (setFormat wOpened iocAccept640 640 480 V4L2_PIX_FMT_YUYV).1 = true ∧
    (setFormat wOpened iocAccept320 640 480 V4L2_PIX_FMT_YUYV).1 = true ∧
    (setFormat wOpened iocAccept640 640 480 V4L2_PIX_FMT_YUYV).2.1.dev.width = 640 ∧
    (setFormat wOpened iocAccept320 640 480 V4L2_PIX_FMT_YUYV).2.1.dev.width = 320 ∧
    (setFormat wOpened iocAccept640 640 480 V4L2_PIX_FMT_YUYV).1 =
      (setFormat wOpened iocAccept320 640 480 V4L2_PIX_FMT_YUYV).1 ∧
    (setFormat wOpened iocAccept640 640 480 V4L2_PIX_FMT_YUYV).2.1.cam =
      (setFormat wOpened iocAccept320 640 480 V4L2_PIX_FMT_YUYV).2.1.cam := by decide

/-- C8 (amended): `setFormat` never changes the camera object and
returns only a boolean — true exactly when the fd is open, no buffers
are allocated, and the device accepted some format; the accepted values
themselves are discarded (logged only, stored nowhere). -/
theorem c8_setFormat_result (w : World) (e : Ioc) (wd ht pf : Nat) :
    (setFormat w e wd ht pf).2.1.cam = w.cam ∧
    ((setFormat w e wd ht pf).1 = true ↔
      (¬ w.cam.fd < 0 ∧ w.dev.granted = 0 ∧ (e.sfmt wd ht pf).isSome = true)) := by
  constructor
  · unfold setFormat
    by_cases hfd : w.cam.fd < 0
    · rw [if_pos hfd]
    · rw [if_neg hfd]
      dsimp only
      split <;> rfl
  · unfold setFormat
    by_cases hfd : w.cam.fd < 0
    · rw [if_pos hfd]
      simp [hfd]
    · rw [if_neg hfd]
      dsimp only
      by_cases hg : w.dev.granted = 0
      · rcases hsf : e.sfmt wd ht pf with _ | f
        · simp [devSFmt, hfd, hg, hsf]
        · rcases f with ⟨a, bc⟩
          rcases bc with ⟨b, c⟩
          simp [devSFmt, hfd, hg, hsf]
      · have hd : devSFmt w.dev (e.sfmt wd ht pf) = (none, w.dev) := by
          simp [devSFmt, hg]
        simp [hd, hfd, hg]

theorem findBulkEndpointAux_isSome (ifaces : List UsbInterface) :
    ∀ j : Nat, ((findBulkEndpointAux ifaces j).isSome = true ↔
      ∃ it ∈ ifaces, ∃ ep ∈ it.endpoints,
        ep.etype = USB_ENDPOINT_XFER_BULK ∧ ep.direction = USB_DIR_IN) := by
  induction ifaces with
  | nil => intro j; simp [findBulkEndpointAux]
  | cons it rest ih =>
    intro j
    unfold findBulkEndpointAux
    rcases hf : findBulkIn it.endpoints with _ | k
    · dsimp only
      rw [ih (j + 1)]
      have hno : ¬ ∃ ep ∈ it.endpoints,
          ep.etype = USB_ENDPOINT_XFER_BULK ∧ ep.direction = USB_DIR_IN := by
        intro hex
        have hs := (findBulkInAux_isSome it.endpoints 0).mpr hex
        have heq : findBulkInAux it.endpoints 0 = findBulkIn it.endpoints := rfl
        rw [heq, hf] at hs
        cases hs
      constructor
      · rintro ⟨q, hq, hex⟩
        exact ⟨q, List.mem_cons_of_mem it hq, hex⟩
      · rintro ⟨q, hq, hex⟩
        rcases List.mem_cons.mp hq with rfl | hq
        · exact absurd hex hno
        · exact ⟨q, hq, hex⟩
    · dsimp only
      simp only [Option.isSome_some, true_iff]
      have hs : (findBulkInAux it.endpoints 0).isSome = true := by
        have heq : findBulkInAux it.endpoints 0 = findBulkIn it.endpoints := rfl
        rw [heq, hf]
        rfl
      obtain ⟨ep, hep, h⟩ := (findBulkInAux_isSome it.endpoints 0).mp hs
      exact ⟨it, List.mem_cons_self it rest, ep, hep, h⟩

/-- C9, counterexample: on `d9a` the first matching streaming
interface refuses claiming yet discovery proceeds and claims the second
match (the claim says a refused claim fails the open with
NoStreamingInterface); on `d9b` the claimed streaming interface (index
0) has no endpoints at all, yet open succeeds by taking the bulk IN
endpoint of the non-matching, unclaimed interface 1 (the claim says the
search is limited to the claimed interface). -/
theorem c9_counterexample :
    findStreamingInterface d9a.interfaces = true ∧
    d9a.interfaces.map UsbInterface.claimOk = [false, true] ∧
    d9a.interfaces.map UsbInterface.iclass = [14, 14] ∧
    (uvcOpen uvcInitial d9b).1 = true ∧
    findBulkEndpoint d9b = some (1, 0) ∧
    (d9b.interfaces.map fun it => findBulkIn it.endpoints) = [none, some 0] ∧
    d9b.interfaces.map UsbInterface.iclass = [14, 255] := by decide

/-- C9 (amended): `findStreamingInterface` succeeds iff SOME matching
video-streaming interface can be claimed (scanning past refused claims),
and the bulk-endpoint search succeeds iff ANY interface of the device —
not only the claimed streaming interface — has a bulk IN endpoint. -/
theorem c9_discovery (ifaces : List UsbInterface) (j : Nat) :
    (findStreamingInterface ifaces = true ↔
      ∃ it ∈ ifaces, it.iclass = UVC_INTERFACE_CLASS ∧
        it.isubclass = UVC_INTERFACE_SUBCLASS_STREAMING ∧ it.claimOk = true) ∧
    ((findBulkEndpointAux ifaces j).isSome = true ↔
      ∃ it ∈ ifaces, ∃ ep ∈ it.endpoints,
        ep.etype = USB_ENDPOINT_XFER_BULK ∧ ep.direction = USB_DIR_IN) :=
  ⟨findStreamingInterface_iff ifaces, findBulkEndpointAux_isSome ifaces j⟩

/-- C10: from a state with no buffer InFlight (well-formed device
queue, driver accepting requeues), `nativeGetFrame` always leaves no
buffer InFlight; whenever a frame is obtained the call trace is exactly
DQBUF followed by the QBUF that `releaseFrame` issues before returning;
and when the managed-array allocation succeeds the returned value is the
frame data copied out of the mapped buffer — a detached value, not a
reference into the mapping. -/
theorem c10_nativeGetFrame (w : World) (e : Ioc) (allocOk : Bool)
    (hnd : w.dev.queued.Nodup) (hbd : ∀ i ∈ w.dev.queued, i < w.dev.granted)
    (hdq : w.dev.dequeued = []) (hrel : ∀ i, e.qbufOk i = true) :
    inFlight (nativeGetFrame w e allocOk).2.1 = 0 ∧
    ((getFrame w e).1.isSome = true →
      (nativeGetFrame w e allocOk).2.2 =
        [Cmd.ioctlDQBuf, Cmd.ioctlQBuf (getFrame w e).2.1.cam.current_buffer]) ∧
    (allocOk = true → (nativeGetFrame w e allocOk).1 = (getFrame w e).1) := by
  unfold nativeGetFrame
  by_cases hstr : w.cam.streaming = false
  · have hg : getFrame w e = (none, w, []) := by
      unfold getFrame
      rw [if_pos hstr]
    rw [hg]
    refine ⟨by simp [inFlight, hdq], ?_, fun _ => rfl⟩
    intro h
    cases h
  · by_cases hfd : w.cam.fd < 0
    · have hg : getFrame w e =
          (none, { w with cam := { w.cam with current_buffer := mkQueueBuf 0 } },
           [Cmd.ioctlDQBuf]) := by
        unfold getFrame
        rw [if_neg hstr]
        dsimp only
        rw [if_pos hfd]
      rw [hg]
      refine ⟨by simp [inFlight, hdq], ?_, fun _ => rfl⟩
      intro h
      cases h
    · rcases hpick : e.dqbuf with _ | p
      · have hg : getFrame w e =
            (none, { w with cam := { w.cam with current_buffer := mkQueueBuf 0 } },
             [Cmd.ioctlDQBuf]) := by
          unfold getFrame
          rw [if_neg hstr]
          dsimp only
          rw [if_neg hfd, hpick]
          rfl
        rw [hg]
        refine ⟨by simp [inFlight, hdq], ?_, fun _ => rfl⟩
        intro h
        cases h
      · rcases p with ⟨i, used⟩
        by_cases hcond : w.dev.devStreaming = true ∧ i ∈ w.dev.queued
        · have hd : devDqbuf w.dev e.dqbuf =
              (some (i, used), { w.dev with queued := w.dev.queued.erase i, dequeued := w.dev.dequeued ++ [i] }) := by
            rw [hpick]
            unfold devDqbuf
            dsimp only
            rw [if_pos hcond]
          have hg : getFrame w e =
              (some (i, used), { w with cam := { w.cam with current_buffer := { mkQueueBuf 0 with index := i, bytesused := used } }, dev := { w.dev with queued := w.dev.queued.erase i, dequeued := w.dev.dequeued ++ [i] } }, [Cmd.ioctlDQBuf]) := by
            unfold getFrame
            rw [if_neg hstr]
            dsimp only
            rw [if_neg hfd, hd]
          rw [hg]
          dsimp only
          have hib : i < w.dev.granted := hbd i hcond.2
          have hini : i ∉ w.dev.queued.erase i := by
            intro hmem
            rcases (List.Nodup.mem_erase_iff hnd).mp hmem with ⟨hne, _⟩
            exact hne rfl
          have hq : devQbuf { w.dev with queued := w.dev.queued.erase i, dequeued := w.dev.dequeued ++ [i] } (e.qbufOk i) { mkQueueBuf 0 with index := i, bytesused := used } = (true, { w.dev with queued := w.dev.queued.erase i ++ [i], dequeued := (w.dev.dequeued ++ [i]).erase i }) := by
            unfold devQbuf
            rw [if_pos]
            constructor
            · exact hrel i
            · exact ⟨rfl, rfl, hib, hini⟩
          have hr2 : releaseFrame { w with cam := { w.cam with current_buffer := { mkQueueBuf 0 with index := i, bytesused := used } }, dev := { w.dev with queued := w.dev.queued.erase i, dequeued := w.dev.dequeued ++ [i] } } e = ({ w with cam := { w.cam with current_buffer := { mkQueueBuf 0 with index := i, bytesused := used } }, dev := { w.dev with queued := w.dev.queued.erase i ++ [i], dequeued := (w.dev.dequeued ++ [i]).erase i } }, [Cmd.ioctlQBuf { mkQueueBuf 0 with index := i, bytesused := used }]) := by
            unfold releaseFrame
            dsimp only
            rw [if_neg hfd]
            rw [hq]
          rw [hr2]
          refine ⟨?_, fun _ => rfl, ?_⟩
          · simp [inFlight, hdq]
          · intro ha
            rw [if_pos ha]
        · have hd : devDqbuf w.dev e.dqbuf = (none, w.dev) := by
            rw [hpick]
            unfold devDqbuf
            dsimp only
            rw [if_neg hcond]
          have hg : getFrame w e =
              (none, { w with cam := { w.cam with current_buffer := mkQueueBuf 0 } },
               [Cmd.ioctlDQBuf]) := by
            unfold getFrame
            rw [if_neg hstr]
            dsimp only
            rw [if_neg hfd, hd]
          rw [hg]
          refine ⟨by simp [inFlight, hdq], ?_, fun _ => rfl⟩
          intro h
          cases h

/-- C10, witness: `nativeGetFrame` on a concrete streaming run. -/
theorem c10_witness :
    (startStreaming wFmt iocAllOk).2.1.dev.queued.Nodup ∧
    (∀ i ∈ (startStreaming wFmt iocAllOk).2.1.dev.queued,
      i < (startStreaming wFmt iocAllOk).2.1.dev.granted) ∧
    (startStreaming wFmt iocAllOk).2.1.dev.dequeued = [] ∧
    (inFlight (nativeGetFrame (startStreaming wFmt iocAllOk).2.1 iocAllOk true).2.1 = 0 ∧
     ((getFrame (startStreaming wFmt iocAllOk).2.1 iocAllOk).1.isSome = true →
       (nativeGetFrame (startStreaming wFmt iocAllOk).2.1 iocAllOk true).2.2 =
         [Cmd.ioctlDQBuf, Cmd.ioctlQBuf
           (getFrame (startStreaming wFmt iocAllOk).2.1 iocAllOk).2.1.cam.current_buffer]) ∧
     (true = true →
       (nativeGetFrame (startStreaming wFmt iocAllOk).2.1 iocAllOk true).1 =
         (getFrame (startStreaming wFmt iocAllOk).2.1 iocAllOk).1)) :=
  ⟨by decide, by decide, by decide,
   c10_nativeGetFrame (startStreaming wFmt iocAllOk).2.1 iocAllOk true
     (by decide) (by decide) (by decide) (fun i => rfl)⟩

end PostureAnalyser
